import Mathlib

/-!
Verification of the calendarserver transactional calendar datastore spec
against the sources.  The repository sources available here are
`txdav/caldav/datastore/test/test_sql.py` (the SQL store test suite) and
`calendarserver/tools/agent.py` (the administrative gateway agent).  The
store, migration and timestamp implementations themselves are exercised by
the tests but their modules are not among the sources, so those parts are
modelled from the specification text; `agent.py` is embedded directly.

All machine-level state is modelled with plain `Nat`/`Int`/`String`/`List`
values, and every definition is executable.
-/

/-! ## Timestamps (spec section 3, "Timestamps"; test_datetimes)

Modelled from the spec: stored timestamps are fixed-format text
`YYYY-MM-DD HH:MM:SS`, implicitly UTC, converted to a numeric epoch value
on read through one canonical pure conversion function (`datetimeMktime`),
exact to the second. -/

/-- A naive (timezone-free) datetime, interpreted as UTC. -/
structure NaiveDateTime where
  year : Nat
  month : Nat
  day : Nat
  hour : Nat
  minute : Nat
  second : Nat
deriving Repr, DecidableEq

/-- Proleptic Gregorian leap-year rule. -/
def isLeapYear (y : Nat) : Bool :=
  y % 4 == 0 && (y % 100 != 0 || y % 400 == 0)

def daysInMonth (y m : Nat) : Nat :=
  if m == 2 then (if isLeapYear y then 29 else 28)
  else if m == 4 || m == 6 || m == 9 || m == 11 then 30
  else 31

def daysInYear (y : Nat) : Nat := if isLeapYear y then 366 else 365

/-- Days from 1970-01-01 to the first day of year `y`. -/
def daysBeforeYear (y : Nat) : Nat :=
  (List.range (y - 1970)).foldl (fun acc i => acc + daysInYear (1970 + i)) 0

/-- Days from the first of the year to the first day of month `m`. -/
def daysBeforeMonth (y m : Nat) : Nat :=
  (List.range (m - 1)).foldl (fun acc i => acc + daysInMonth y (i + 1)) 0

/-- Days from 1970-01-01 to the civil date `y-m-d`. -/
def daysSinceEpoch (y m d : Nat) : Nat :=
  daysBeforeYear y + daysBeforeMonth y m + (d - 1)

/-- Modelled from the spec: the one canonical pure conversion from a naive
UTC datetime to the numeric epoch value, exact to the second.  The
implementation module (`twistedcaldav.dateops.datetimeMktime`) is not among
the sources; the spec fixes its meaning as the epoch of the naive UTC
datetime. -/
def datetimeMktime (dt : NaiveDateTime) : Nat :=
  daysSinceEpoch dt.year dt.month dt.day * 86400
    + dt.hour * 3600 + dt.minute * 60 + dt.second

def digitVal (c : Char) : Option Nat :=
  if c.isDigit then some (c.toNat - 48) else none

def parseDigits (cs : List Char) : Option Nat :=
  cs.foldl
    (fun acc c =>
      match acc, digitVal c with
      | some a, some d => some (a * 10 + d)
      | _, _ => none)
    (some 0)

/-- Parse the fixed-format stored text timestamp `YYYY-MM-DD HH:MM:SS`. -/
def parseTimestamp (t : String) : Option NaiveDateTime :=
  match t.data with
  | [y1, y2, y3, y4, h1, mo1, mo2, h2, d1, d2, sp, hh1, hh2, c1, mi1, mi2, c2, s1, s2] =>
    if h1 == '-' && h2 == '-' && sp == ' ' && c1 == ':' && c2 == ':' then
      match parseDigits [y1, y2, y3, y4], parseDigits [mo1, mo2],
            parseDigits [d1, d2], parseDigits [hh1, hh2],
            parseDigits [mi1, mi2], parseDigits [s1, s2] with
      | some y, some mo, some d, some hh, some mi, some s =>
        some ⟨y, mo, d, hh, mi, s⟩
      | _, _, _, _, _, _ => none
    else none
  | _ => none

/-- A resource row carrying the two stored fixed-format text timestamps, as
set on `Calendar` and `CalendarObject` rows (fields `_created` and
`_modified` in the test). -/
structure TimestampedRow where
  _created : String
  _modified : String
deriving Repr, DecidableEq

/-- Modelled from the spec: the `created()` read accessor converts the
stored text through the canonical conversion function. -/
def created (r : TimestampedRow) : Option Nat :=
  (parseTimestamp r._created).map datetimeMktime

/-- Modelled from the spec: the `modified()` read accessor converts the
stored text through the canonical conversion function. -/
def modified (r : TimestampedRow) : Option Nat :=
  (parseTimestamp r._modified).map datetimeMktime

def demoTimestampedRow : TimestampedRow :=
  ⟨"2011-02-05 11:22:47", "2011-02-06 11:22:47"⟩

/-! ## The administrative gateway (`calendarserver/tools/agent.py`) -/

/-- An XML property list, modelled as an association list of key/value
pairs (`plistlib` dictionaries). -/
abbrev Plist := List (String × String)

/-- Serialization of a property list, `plistlib.writePlistToString`. -/
def writePlistToString (p : Plist) : String :=
  "<plist><dict>"
    ++ p.foldl
        (fun acc kv =>
          acc ++ "<key>" ++ kv.1 ++ "</key><string>" ++ kv.2 ++ "</string>")
        ""
    ++ "</dict></plist>"

/-- A failed command execution as seen by the errback of
`AgentGatewayResource.render_POST`: a twisted `Failure` exposing
`getErrorMessage()` and `printTraceback()`. -/
structure CommandFailure where
  message : String
  traceback : String
deriving Repr, DecidableEq

/-- What `render_POST` writes back to the HTTP client. -/
inductive GatewayHTTPResponse where
  | body (txt : String)
  | errorPlist (p : Plist)
deriving Repr, DecidableEq

/-- The error dictionary built by the `onError` errback of
`AgentGatewayResource.render_POST` (agent.py lines 120-132). -/
def render_POST_onError (f : CommandFailure) : Plist :=
  [("Error", f.message), ("Traceback", f.traceback)]

/-- `AgentGatewayResource.render_POST` (agent.py lines 106-142): the
command is run through `gateway.Runner`; `onSuccess` writes the output
text, `onError` writes the serialized error property list.  Both paths
finish the request; the failure never escapes. -/
def render_POST (runResult : Except CommandFailure String) : GatewayHTTPResponse :=
  match runResult with
  | .ok txt => .body txt
  | .error f => .errorPlist (render_POST_onError f)

/-- `GatewayAMPProtocol.gatewayCommandReceived` (agent.py lines 288-314):
the command is run through `gateway.Runner`; on an exception `e` the
responder answers with the serialized plist `[("Error", str e)]`.  The AMP
exception is modelled by the string `str(e)`.  The returned association
list is the AMP response dictionary. -/
def gatewayCommandReceived (runResult : Except String String) : Plist :=
  match runResult with
  | .ok out => [("result", out)]
  | .error e => [("result", writePlistToString [("Error", e)])]

/-- Python-level errors raised while evaluating an expression. -/
inductive PyError where
  | attributeError (name : String)
  | typeError (msg : String)
deriving Repr, DecidableEq

/-- `GatewayAMPProtocol` state: `__init__(self, store, directory)` takes
exactly two parameters besides `self` (agent.py lines 277-285). -/
structure GatewayAMPProtocol where
  store : String
  directory : String
deriving Repr, DecidableEq

/-- `GatewayAMPFactory` instance state.  `__init__` assigns `store` and
`directory`; no code path ever assigns `davRootResource`, so the attribute
slot is modelled as an `Option` that `__init__` leaves at `none`
(agent.py lines 318-335). -/
structure GatewayAMPFactory where
  store : String
  directory : String
  davRootResource : Option String
deriving Repr, DecidableEq

/-- `GatewayAMPFactory.__init__(self, store)` (agent.py lines 324-329). -/
def GatewayAMPFactory.mkFactory (store : String)
    (directoryServiceOf : String → String) : GatewayAMPFactory :=
  { store := store, directory := directoryServiceOf store, davRootResource := none }

/-- Python attribute lookup `self.davRootResource` on the factory. -/
def getattrDavRootResource (f : GatewayAMPFactory) : Except PyError String :=
  match f.davRootResource with
  | some v => .ok v
  | none => .error (.attributeError "davRootResource")

/-- `GatewayAMPFactory.buildProtocol` (agent.py lines 332-335): evaluates
`self.store`, `self.davRootResource` and `self.directory`, then calls the
two-parameter `GatewayAMPProtocol.__init__` with three arguments.  If the
attribute lookup succeeded the call itself would raise `TypeError` for the
extra positional argument. -/
def GatewayAMPFactory.buildProtocol (f : GatewayAMPFactory) :
    Except PyError GatewayAMPProtocol :=
  match getattrDavRootResource f with
  | .error e => .error e
  | .ok _ =>
    .error (.typeError "__init__ takes 3 positional arguments but 4 were given")

/-- A delayed call handed back by `reactor.callLater`. -/
structure DelayedCall where
  delaySeconds : Int
  active : Bool
deriving Repr, DecidableEq

/-- `InactivityDetector` state (agent.py lines 201-256), with two
observation counters: `scheduleCount` counts `reactor.callLater`
invocations, `inactiveCallCount` counts invocations of the
`becameInactive` callback. -/
structure InactivityDetector where
  _timeoutSeconds : Int
  _delayedCall : Option DelayedCall
  scheduleCount : Nat
  inactiveCallCount : Nat
deriving Repr, DecidableEq

/-- `InactivityDetector.__init__` (agent.py lines 208-223): schedules the
delayed call only when `timeoutSeconds > 0`. -/
def InactivityDetector.start (timeoutSeconds : Int) : InactivityDetector :=
  if timeoutSeconds > 0 then
    { _timeoutSeconds := timeoutSeconds,
      _delayedCall := some ⟨timeoutSeconds, true⟩,
      scheduleCount := 1, inactiveCallCount := 0 }
  else
    { _timeoutSeconds := timeoutSeconds, _delayedCall := none,
      scheduleCount := 0, inactiveCallCount := 0 }

/-- `InactivityDetector.activity` (agent.py lines 234-246): resets the
delayed call if active, otherwise schedules a fresh one; a no-op unless
`_timeoutSeconds > 0`. -/
def InactivityDetector.activity (s : InactivityDetector) : InactivityDetector :=
  if s._timeoutSeconds > 0 then
    match s._delayedCall with
    | some dc =>
      if dc.active then
        { s with _delayedCall := some ⟨s._timeoutSeconds, true⟩ }
      else
        { s with _delayedCall := some ⟨s._timeoutSeconds, true⟩,
                 scheduleCount := s.scheduleCount + 1 }
    | none =>
      { s with _delayedCall := some ⟨s._timeoutSeconds, true⟩,
               scheduleCount := s.scheduleCount + 1 }
  else s

/-- `InactivityDetector.stop` (agent.py lines 249-255): cancels the
delayed call if active; a no-op unless `_timeoutSeconds > 0`. -/
def InactivityDetector.stop (s : InactivityDetector) : InactivityDetector :=
  if s._timeoutSeconds > 0 then
    match s._delayedCall with
    | some dc =>
      if dc.active then { s with _delayedCall := some ⟨dc.delaySeconds, false⟩ }
      else s
    | none => s
  else s

/-- The reactor firing the pending delayed call: only an active scheduled
call can fire, and firing runs `_inactivityThresholdReached`, which calls
the `becameInactive` callback (agent.py lines 226-231). -/
def InactivityDetector.fire (s : InactivityDetector) : InactivityDetector :=
  match s._delayedCall with
  | some dc =>
    if dc.active then
      { s with _delayedCall := some ⟨dc.delaySeconds, false⟩,
               inactiveCallCount := s.inactiveCallCount + 1 }
    else s
  | none => s

/-- Events that can happen to an `InactivityDetector` after construction. -/
inductive IDOp where
  | activity
  | stop
  | fire
deriving Repr, DecidableEq

def InactivityDetector.step (s : InactivityDetector) : IDOp → InactivityDetector
  | .activity => s.activity
  | .stop => s.stop
  | .fire => s.fire

def InactivityDetector.run (s : InactivityDetector) : List IDOp → InactivityDetector
  | [] => s
  | op :: ops => (s.step op).run ops

/-! ## The SQL store: entities and the shared property table

Modelled from the spec (sections 3, 4.2, 4.3): the store implementation
module (`txdav.common.datastore.sql`) is not among the sources.  One table
per entity kind plus one shared property table keyed by resource ID; every
entity-removal path invokes `deleteAll` on the property store in the same
unit of work.  Each operation below is one transaction's unit of work: its
resulting `StoreState` is the committed state, which is also exactly what
any fresh later transaction reads. -/

/-- A row of the shared `RESOURCE_PROPERTY` table, keyed by resource ID and
(namespaced property name, per-viewer UID). -/
structure PropertyRow where
  resourceID : Nat
  propName : String
  viewerUID : String
  value : String
deriving Repr, DecidableEq

/-- A row of the `CALENDAR_HOME` table. -/
structure HomeRow where
  resourceID : Nat
  uid : String
deriving Repr, DecidableEq

/-- A row of the `CALENDAR` table. -/
structure CalendarRow where
  resourceID : Nat
  homeID : Nat
  calendarName : String
deriving Repr, DecidableEq

/-- A row of the `CALENDAR_OBJECT` table. -/
structure CalendarObjectRow where
  resourceID : Nat
  calendarID : Nat
  objectName : String
  component : String
deriving Repr, DecidableEq

/-- The committed relational state of the store. -/
structure StoreState where
  nextResourceID : Nat
  homes : List HomeRow
  calendars : List CalendarRow
  calendarObjects : List CalendarObjectRow
  resourceProperties : List PropertyRow
deriving Repr, DecidableEq

/-- The test suite's `_allWithID` query: all property rows whose resource
ID is `r`. -/
def propertyRowsForResource (s : StoreState) (r : Nat) : List PropertyRow :=
  s.resourceProperties.filter (fun p => p.resourceID == r)

/-- Modelled from the spec: `deleteAll(resourceID)` of the property store,
removing every property row referencing the resource ID. -/
def deleteAllProperties (s : StoreState) (r : Nat) : StoreState :=
  { s with resourceProperties :=
      s.resourceProperties.filter (fun p => p.resourceID != r) }

/-- Modelled from the spec: `set(resourceID, key, value)` of the property
store; created or overwritten on assignment, never rejected for any
resource kind. -/
def setProperty (s : StoreState) (r : Nat) (name viewer v : String) : StoreState :=
  let kept := s.resourceProperties.filter
    (fun p => !(p.resourceID == r && p.propName == name && p.viewerUID == viewer))
  { s with resourceProperties := kept ++ [⟨r, name, viewer, v⟩] }

/-- Modelled from the spec: reading one property value back. -/
def getProperty (s : StoreState) (r : Nat) (name viewer : String) : Option String :=
  (s.resourceProperties.find?
      (fun p => p.resourceID == r && p.propName == name && p.viewerUID == viewer)).map
    (fun p => p.value)

def homeWithUID (s : StoreState) (uid : String) : Option HomeRow :=
  s.homes.find? (fun h => h.uid == uid)

def calendarWithName (s : StoreState) (homeID : Nat) (name : String) : Option CalendarRow :=
  s.calendars.find? (fun c => c.homeID == homeID && c.calendarName == name)

def calendarObjectWithName (s : StoreState) (calendarID : Nat) (name : String) :
    Option CalendarObjectRow :=
  s.calendarObjects.find? (fun o => o.calendarID == calendarID && o.objectName == name)

/-- Modelled from the spec: `createCalendarWithName` provisions a new
calendar row under the home. -/
def createCalendarWithName (s : StoreState) (homeID : Nat) (name : String) :
    StoreState × Nat :=
  ({ s with nextResourceID := s.nextResourceID + 1,
            calendars := s.calendars ++ [⟨s.nextResourceID, homeID, name⟩] },
   s.nextResourceID)

/-- Modelled from the spec: `createCalendarObjectWithName` stores the
validated body verbatim under a fresh resource ID; it writes no property
rows. -/
def createCalendarObjectWithName (s : StoreState) (calendarID : Nat)
    (name component : String) : StoreState × Nat :=
  ({ s with nextResourceID := s.nextResourceID + 1,
            calendarObjects :=
              s.calendarObjects ++ [⟨s.nextResourceID, calendarID, name, component⟩] },
   s.nextResourceID)

/-- Modelled from the spec: `removeCalendarObjectWithName` deletes the
object row and all of its property rows in one unit of work; `none` models
`NotFoundError`. -/
def removeCalendarObjectWithName (s : StoreState) (calendarID : Nat) (name : String) :
    Option StoreState :=
  match calendarObjectWithName s calendarID name with
  | none => none
  | some o =>
    let remaining := s.calendarObjects.filter
      (fun o2 => !(o2.calendarID == calendarID && o2.objectName == name))
    some (deleteAllProperties { s with calendarObjects := remaining } o.resourceID)

/-- Modelled from the spec: `removeCalendarWithName` deletes the calendar
row, cascades deletion of its calendar objects and deletes all property
rows of every removed resource, in one unit of work. -/
def removeCalendarWithName (s : StoreState) (homeID : Nat) (name : String) :
    Option StoreState :=
  match calendarWithName s homeID name with
  | none => none
  | some c =>
    let objIDs := (s.calendarObjects.filter
        (fun o => o.calendarID == c.resourceID)).map (fun o => o.resourceID)
    let s1 := { s with
      calendars := s.calendars.filter
        (fun c2 => !(c2.homeID == homeID && c2.calendarName == name)),
      calendarObjects := s.calendarObjects.filter
        (fun o => o.calendarID != c.resourceID) }
    some (deleteAllProperties (objIDs.foldl deleteAllProperties s1) c.resourceID)

/-- Modelled from the spec: removing a home deletes the home row, cascades
over its calendars and their objects, and deletes all property rows of
every removed resource, in one unit of work. -/
def removeHomeWithUID (s : StoreState) (uid : String) : Option StoreState :=
  match homeWithUID s uid with
  | none => none
  | some h =>
    let calIDs := (s.calendars.filter
        (fun c => c.homeID == h.resourceID)).map (fun c => c.resourceID)
    let objIDs := (s.calendarObjects.filter
        (fun o => calIDs.contains o.calendarID)).map (fun o => o.resourceID)
    let s1 := { s with
      homes := s.homes.filter (fun h2 => h2.uid != uid),
      calendars := s.calendars.filter (fun c => c.homeID != h.resourceID),
      calendarObjects := s.calendarObjects.filter
        (fun o => !(calIDs.contains o.calendarID)) }
    some (deleteAllProperties ((objIDs ++ calIDs).foldl deleteAllProperties s1)
      h.resourceID)

/-- A concrete store used by the witness theorems: one home, a calendar
named `remove-me` carrying a property, the reserved `inbox` calendar, and
an inbox object `4.ics` carrying a property. -/
def demoStore : StoreState :=
  { nextResourceID := 10,
    homes := [⟨1, "home1"⟩],
    calendars := [⟨2, 1, "remove-me"⟩, ⟨3, 1, "inbox"⟩],
    calendarObjects := [⟨4, 3, "4.ics", "BEGIN:VCALENDAR"⟩, ⟨5, 2, "1.ics", "event"⟩],
    resourceProperties :=
      [⟨2, "caldav:calendar-description", "", "Calendar to be removed"⟩,
       ⟨4, "caldav:calendar-description", "", "Calendar object to be removed"⟩] }

/-! ## The migration engine

Modelled from the spec (section 4.6): the implementation module
(`txdav.caldav.datastore.util`) is not among the sources.  `_migrateCalendar`
copies every calendar object from the source to the destination, applying
the per-object filter; per-object parse/validation failures are caught
individually and counted, and the pair (successCount, failureCount) is
returned. -/

/-- A calendar object of the legacy source store: a name and a body the
filter is applied to. -/
structure SourceObject where
  objectName : String
  body : String
deriving Repr, DecidableEq

/-- Whether the per-object filter accepts the object. -/
def filterOk (filt : SourceObject → Except String String) (o : SourceObject) : Bool :=
  match filt o with
  | .ok _ => true
  | .error _ => false

/-- The destination entry written for one source object: its original name
paired with the filtered component, or nothing when the filter fails. -/
def destEntry (filt : SourceObject → Except String String) (o : SourceObject) :
    Option (String × String) :=
  match filt o with
  | .ok comp => some (o.objectName, comp)
  | .error _ => none

/-- One step of `_migrateCalendar`: the accumulator is the running
(successCount, failureCount) pair and the destination calendar contents. -/
def migrateStep (filt : SourceObject → Except String String)
    (acc : (Nat × Nat) × List (String × String)) (o : SourceObject) :
    (Nat × Nat) × List (String × String) :=
  match filt o with
  | .ok comp => ((acc.1.1 + 1, acc.1.2), acc.2 ++ [(o.objectName, comp)])
  | .error _ => ((acc.1.1, acc.1.2 + 1), acc.2)

/-- Modelled from the spec: `_migrateCalendar(source, destination, filter)`
returns the pair (successCount, failureCount) together with the destination
calendar contents (object name, written body), continuing past each bad
object. -/
def _migrateCalendar (source : List SourceObject)
    (filt : SourceObject → Except String String) :
    (Nat × Nat) × List (String × String) :=
  source.foldl (migrateStep filt) ((0, 0), [])

/-- A calendar of the legacy source store, with its property store
contents as a key/value association list. -/
structure LegacyCalendar where
  calendarName : String
  objects : List SourceObject
  props : List (String × String)
deriving Repr, DecidableEq

/-- A home of the legacy source store. -/
structure LegacyHome where
  calendars : List LegacyCalendar
  props : List (String × String)
deriving Repr, DecidableEq

/-- A migrated destination calendar. -/
structure DestCalendar where
  calendarName : String
  objects : List (String × String)
  props : List (String × String)
deriving Repr, DecidableEq

/-- A migrated destination home. -/
structure DestHome where
  calendars : List DestCalendar
  props : List (String × String)
deriving Repr, DecidableEq

/-- Modelled from the spec: `migrateHome(source, destination, filter)`
enumerates all calendars under the source, migrates each via
`_migrateCalendar` preserving its name, and copies the property store
contents of the home itself and of each calendar, excluding properties
that are defined to be regenerated by the destination. -/
def migrateHome (src : LegacyHome) (filt : SourceObject → Except String String)
    (regenerated : String → Bool) : DestHome :=
  { calendars := src.calendars.map (fun c =>
      { calendarName := c.calendarName,
        objects := (_migrateCalendar c.objects filt).2,
        props := c.props.filter (fun kv => !regenerated kv.1) }),
    props := src.props.filter (fun kv => !regenerated kv.1) }

/-- A concrete filter for the witness theorems: accepts a body iff it
starts with `BEGIN:VCALENDAR`, like component parsing. -/
def demoFilter (o : SourceObject) : Except String String :=
  if o.body.data.take 15 = "BEGIN:VCALENDAR".data then .ok o.body
  else .error "InvalidICalendarDataError"

/-- A concrete legacy home for the witness theorems: `calendar_bad` holds
one valid and one invalid object, as in `test_migrateBadCalendarFromFile`. -/
def demoLegacyHome : LegacyHome :=
  { calendars :=
      [{ calendarName := "calendar_bad",
         objects :=
           [⟨"good.ics", "BEGIN:VCALENDAR ok"⟩, ⟨"bad.ics", "garbage"⟩],
         props := [("DAV:resourcetype", "calendar"), ("getcontentlanguage", "pig-latin")] }],
    props := [("DAV:resourcetype", "home"), ("getcontentlanguage", "C")] }

/-- The property keys the destination regenerates (resource-type markers). -/
def demoRegenerated (k : String) : Bool :=
  k == "DAV:resourcetype"

/-! ## The attachment store

Modelled from the spec (sections 3 and 4.5) and `test_attachmentPath`: an
attachment is stored under
`attachmentRoot / h[0:2] / h[2:4] / h / filename` where `h` is the hex
digest of the hash of the owning object's dropbox identifier.  The hash
implementation itself is not among the sources; the spec only requires a
deterministic content hash, so the digest is modelled as an injective hex
encoding of the identifier. -/

/-- One hex digit character. -/
def hexChar (n : Nat) : Char :=
  if n < 10 then Char.ofNat (48 + n) else Char.ofNat (87 + n)

/-- Big-endian fixed-width hex rendering of `n % 16 ^ w`. -/
def hexNat : Nat → Nat → List Char
  | _, 0 => []
  | n, w + 1 => hexChar (n / 16 ^ w % 16) :: hexNat n w

/-- Decode one hex digit character. -/
def unhexVal (c : Char) : Nat :=
  if c.toNat ≥ 87 then c.toNat - 87 else c.toNat - 48

/-- Decode a big-endian hex digit list. -/
def unhexList : List Char → Nat
  | [] => 0
  | c :: cs => unhexVal c * 16 ^ cs.length + unhexList cs

/-- Eight hex digits per character of the identifier. -/
def charHex (c : Char) : List Char := hexNat c.toNat 8

/-- Modelled from the spec: the hex digest of the content hash of the
dropbox identifier. -/
def hexDigest (d : String) : String := ⟨(d.data.map charHex).flatten⟩

/-- The attachment storage path as a list of path segments below the
attachment root, exactly as computed in `test_attachmentPath`:
`h[0:2] / h[2:4] / h / filename`. -/
def attachmentPathSegments (attachmentRoot : List String)
    (dropboxID fileName : String) : List String :=
  attachmentRoot ++
    [(hexDigest dropboxID).take 2,
     ((hexDigest dropboxID).drop 2).take 2,
     hexDigest dropboxID,
     fileName]

/-! ## The provisioning concurrency controller

Modelled from the spec (section 4.4): the controller implementation is not
among the sources.  A transaction provisioning a logical key acquires a
short-lived name-scoped advisory lock, performs the existence check and
(only when absent) the `INSERT` under that lock, and releases it; reads of
other rows never consult the lock.  An interleaving is a list of
operations; a blocked operation (lock held by another transaction, or a
check-and-insert attempted without the lock) has no successor state, which
models that this interleaving cannot take that step. -/

/-- Operations of the provisioning model, each tagged with the performing
transaction. -/
inductive ProvOp where
  | acquire (txn : Nat) (key : String)
  | checkInsert (txn : Nat) (key : String)
  | release (txn : Nat) (key : String)
  | readRow (txn : Nat) (key : String)
deriving Repr, DecidableEq

/-- The shared backing-storage state of the provisioning model.
`insertLog` records every `INSERT` performed, `results` every completed
provisioning outcome (transaction, key, entity ID), `reads` every
read-only lookup outcome. -/
structure ProvState where
  rows : List (String × Nat)
  nextID : Nat
  locks : List (Nat × String)
  insertLog : List (Nat × String)
  results : List (Nat × String × Nat)
  reads : List (Nat × String × Option Nat)
deriving Repr, DecidableEq

/-- Whether some other transaction holds the advisory lock on `key`. -/
def lockHeldByOther (s : ProvState) (txn : Nat) (key : String) : Bool :=
  s.locks.any (fun l => l.2 == key && l.1 != txn)

/-- One small step of the provisioning model. -/
def provStep (s : ProvState) : ProvOp → Option ProvState
  | .acquire txn key =>
    if lockHeldByOther s txn key then none
    else some { s with locks := s.locks ++ [(txn, key)] }
  | .checkInsert txn key =>
    if (txn, key) ∈ s.locks then
      match s.rows.lookup key with
      | some i => some { s with results := s.results ++ [(txn, key, i)] }
      | none => some { s with
          rows := s.rows ++ [(key, s.nextID)],
          nextID := s.nextID + 1,
          insertLog := s.insertLog ++ [(txn, key)],
          results := s.results ++ [(txn, key, s.nextID)] }
    else none
  | .release txn key =>
    some { s with locks := s.locks.filter (fun l => l != (txn, key)) }
  | .readRow txn key =>
    some { s with reads := s.reads ++ [(txn, key, s.rows.lookup key)] }

/-- Run an interleaving from a state. -/
def provRun (s : ProvState) : List ProvOp → Option ProvState
  | [] => some s
  | op :: ops =>
    match provStep s op with
    | some s2 => provRun s2 ops
    | none => none

/-- The empty backing storage. -/
def initProvState : ProvState := ⟨[], 0, [], [], [], []⟩

/-- How many `INSERT`s have been performed for a given logical key. -/
def insertCountFor (s : ProvState) (key : String) : Nat :=
  s.insertLog.countP (fun e => e.2 == key)

/-- The provisioning invariant: a key has been inserted exactly once iff
its row exists, and every completed provisioning outcome references the
entity ID of the committed row for its key. -/
def ProvInv (s : ProvState) : Prop :=
  (∀ key : String,
    insertCountFor s key = if (s.rows.lookup key).isSome then 1 else 0) ∧
  (∀ t k i, (t, k, i) ∈ s.results → s.rows.lookup k = some i)

/-- A concrete racing interleaving for the witness theorem, following
`test_homeProvisioningConcurrency`: transaction 3 provisions `uid2` and
commits; transactions 1 and 2 then race to provision `uid1`, while
transaction 4 reads the already-committed `uid2` in between. -/
def demoTrace : List ProvOp :=
  [.acquire 3 "uid2", .checkInsert 3 "uid2", .release 3 "uid2",
   .acquire 1 "uid1", .checkInsert 1 "uid1",
   .readRow 4 "uid2",
   .release 1 "uid1",
   .acquire 2 "uid1", .checkInsert 2 "uid1", .release 2 "uid1"]

/-- The final state of the demo interleaving. -/
def demoProvFinal : ProvState :=
  (provRun initProvState demoTrace).getD initProvState

/-! ## Theorems -/

/-- Claim C1: for every stored fixed-format text timestamp on a Calendar or
CalendarObject, the `created()`/`modified()` read accessors return the
numeric epoch value of that text interpreted as a naive UTC datetime, via
the one canonical pure conversion function `datetimeMktime`, exact to the
second; in particular the stored text `"2011-02-05 11:22:47"` yields the
epoch of the naive UTC datetime 2011-02-05T11:22:47, which is 1296904967. -/
theorem created_modified_canonical_epoch (r : TimestampedRow) (dt : NaiveDateTime)
    (h : parseTimestamp r._created = some dt) :
    created r = some (datetimeMktime dt) ∧
    (∀ r2 : TimestampedRow, ∀ dt2 : NaiveDateTime,
      parseTimestamp r2._modified = some dt2 → modified r2 = some (datetimeMktime dt2)) ∧
    (∀ dt2 : NaiveDateTime,
      datetimeMktime ⟨dt2.year, dt2.month, dt2.day, dt2.hour, dt2.minute, dt2.second + 1⟩
        = datetimeMktime dt2 + 1) ∧
    (parseTimestamp "2011-02-05 11:22:47").map datetimeMktime = some 1296904967 ∧
    datetimeMktime ⟨2011, 2, 5, 11, 22, 47⟩ = 1296904967 := by
  refine ⟨?_, ?_, ?_, ?_, ?_⟩
  · simp [created, h]
  · intro r2 dt2 h2
    simp [modified, h2]
  · intro dt2
    simp [datetimeMktime]
    omega
  · decide
  · decide

/-- Witness for C1 at the stored text of `test_datetimes`. -/
theorem created_modified_canonical_epoch_witness :
    parseTimestamp demoTimestampedRow._created = some ⟨2011, 2, 5, 11, 22, 47⟩ ∧
    created demoTimestampedRow = some (datetimeMktime ⟨2011, 2, 5, 11, 22, 47⟩) :=
  ⟨by decide,
   (created_modified_canonical_epoch demoTimestampedRow ⟨2011, 2, 5, 11, 22, 47⟩
     (by decide)).1⟩

/-- Claim C7: every command whose execution fails is answered with a
serialized, describable error object: the HTTP gateway returns a property
list carrying the message under key `Error` and the traceback under key
`Traceback`, the AMP gateway returns a property list carrying key `Error`;
both boundary functions return a response on every input, so the failure
never escapes to terminate the process. -/
theorem gateway_failures_serialized (f : CommandFailure) (e : String) :
    render_POST (.error f)
      = .errorPlist [("Error", f.message), ("Traceback", f.traceback)] ∧
    (render_POST_onError f).lookup "Error" = some f.message ∧
    (render_POST_onError f).lookup "Traceback" = some f.traceback ∧
    gatewayCommandReceived (.error e)
      = [("result", writePlistToString [("Error", e)])] ∧
    ([("Error", e)] : Plist).lookup "Error" = some e ∧
    (∀ x : Except CommandFailure String,
      (∃ t, render_POST x = .body t) ∨ (∃ p, render_POST x = .errorPlist p)) ∧
    (∀ x : Except String String, ∃ out, gatewayCommandReceived x = [("result", out)]) := by
  refine ⟨rfl, rfl, ?_, rfl, rfl, ?_, ?_⟩
  · simp [render_POST_onError, List.lookup]
  · intro x
    cases x with
    | ok t => exact .inl ⟨t, rfl⟩
    | error g => exact .inr ⟨render_POST_onError g, rfl⟩
  · intro x
    cases x with
    | ok out => exact ⟨out, rfl⟩
    | error g => exact ⟨writePlistToString [("Error", g)], rfl⟩

/-- Claim C9: every call to `GatewayAMPFactory.buildProtocol` raises an
exception and never returns a protocol: it reads the never-assigned
attribute `davRootResource` (an `AttributeError` on every factory built by
`__init__`), and would in any case pass three arguments to the
two-parameter `GatewayAMPProtocol` constructor (a `TypeError`). -/
theorem buildProtocol_always_raises (store : String) (dsvc : String → String)
    (f : GatewayAMPFactory) :
    (GatewayAMPFactory.mkFactory store dsvc).buildProtocol
      = .error (.attributeError "davRootResource") ∧
    (∀ p : GatewayAMPProtocol, f.buildProtocol ≠ .ok p) := by
  constructor
  · rfl
  · intro p h
    cases hf : f.davRootResource <;>
      simp [GatewayAMPFactory.buildProtocol, getattrDavRootResource, hf] at h

/-- Witness for C9 at a concrete factory. -/
theorem buildProtocol_always_raises_witness :
    (GatewayAMPFactory.mkFactory "store" (fun s => s)).buildProtocol
      = .error (.attributeError "davRootResource") ∧
    ¬ ((GatewayAMPFactory.mkFactory "store" (fun s => s)).buildProtocol
        = .ok ⟨"store", "store"⟩) :=
  ⟨(buildProtocol_always_raises "store" (fun s => s)
      (GatewayAMPFactory.mkFactory "store" (fun s => s))).1,
   (buildProtocol_always_raises "store" (fun s => s)
      (GatewayAMPFactory.mkFactory "store" (fun s => s))).2 ⟨"store", "store"⟩⟩

/-- On a disabled detector every event is a no-op. -/
theorem inactivity_step_disabled (t : Int) (h : t ≤ 0) (op : IDOp) :
    InactivityDetector.step ⟨t, none, 0, 0⟩ op = ⟨t, none, 0, 0⟩ := by
  have hnp : ¬ (t > 0) := by omega
  cases op <;>
    simp [InactivityDetector.step, InactivityDetector.activity,
      InactivityDetector.stop, InactivityDetector.fire, hnp]

/-- On a disabled detector every event sequence is a no-op. -/
theorem inactivity_run_disabled (t : Int) (h : t ≤ 0) (ops : List IDOp) :
    InactivityDetector.run ⟨t, none, 0, 0⟩ ops = ⟨t, none, 0, 0⟩ := by
  induction ops with
  | nil => rfl
  | cons op ops ih =>
    simp only [InactivityDetector.run, inactivity_step_disabled t h op]
    exact ih

/-- Claim C10: an `InactivityDetector` constructed with
`timeoutSeconds ≤ 0` never schedules a delayed call and its
`becameInactive` callback is never invoked, no matter how many times
`activity()` or `stop()` are subsequently called (both are no-ops); a
non-positive timeout permanently disables the inactivity shutdown. -/
theorem nonpositive_timeout_disables_inactivity (t : Int) (ops : List IDOp)
    (h : t ≤ 0) :
    InactivityDetector.start t = ⟨t, none, 0, 0⟩ ∧
    (InactivityDetector.start t).run ops = InactivityDetector.start t ∧
    ((InactivityDetector.start t).run ops).scheduleCount = 0 ∧
    ((InactivityDetector.start t).run ops).inactiveCallCount = 0 ∧
    (InactivityDetector.start t).activity = InactivityDetector.start t ∧
    (InactivityDetector.start t).stop = InactivityDetector.start t := by
  have hnp : ¬ (t > 0) := by omega
  have hs : InactivityDetector.start t = ⟨t, none, 0, 0⟩ := by
    simp [InactivityDetector.start, hnp]
  have hrun := inactivity_run_disabled t h ops
  have hact := inactivity_step_disabled t h .activity
  have hstop := inactivity_step_disabled t h .stop
  simp only [InactivityDetector.step] at hact hstop
  rw [hs]
  exact ⟨rfl, hrun, by rw [hrun], by rw [hrun], hact, hstop⟩

/-- Witness for C10 at timeout 0 and a concrete event sequence. -/
theorem nonpositive_timeout_disables_inactivity_witness :
    (0 : Int) ≤ 0 ∧
    ((InactivityDetector.start 0).run
        [.activity, .fire, .stop, .activity, .fire]).inactiveCallCount = 0 :=
  ⟨by decide,
   (nonpositive_timeout_disables_inactivity 0
      [.activity, .fire, .stop, .activity, .fire] (by decide)).2.2.2.1⟩

/-- Filtering for resource ID `r` after filtering `r` away yields nothing. -/
theorem filter_ne_then_eq_nil (l : List PropertyRow) (r : Nat) :
    (l.filter (fun p => p.resourceID != r)).filter (fun p => p.resourceID == r) = [] := by
  induction l with
  | nil => rfl
  | cons a l ih =>
    by_cases ha : a.resourceID = r
    · simpa [List.filter_cons, ha] using ih
    · simpa [List.filter_cons, ha] using ih

/-- `deleteAll` leaves no property row for the deleted resource ID. -/
theorem propertyRows_deleteAllProperties (s : StoreState) (r : Nat) :
    propertyRowsForResource (deleteAllProperties s r) r = [] :=
  filter_ne_then_eq_nil s.resourceProperties r

/-- Claim C2: removing a Home, Calendar, or CalendarObject with resource
ID `r` deletes all property-store rows for `r` in the same unit of work as
the entity deletion.  Each removal operation is one unit of work producing
the committed state, and that state is exactly what any fresh later
transaction re-reads, so the `_allWithID` query returns zero rows both
after the removing transaction commits and from a fresh transaction. -/
theorem removal_deletes_property_rows
    (s : StoreState) (uid : String) (homeID : Nat) (calName objName : String)
    (calID : Nat) :
    (∀ h s2, homeWithUID s uid = some h → removeHomeWithUID s uid = some s2 →
      propertyRowsForResource s2 h.resourceID = []) ∧
    (∀ c s2, calendarWithName s homeID calName = some c →
      removeCalendarWithName s homeID calName = some s2 →
      propertyRowsForResource s2 c.resourceID = []) ∧
    (∀ o s2, calendarObjectWithName s calID objName = some o →
      removeCalendarObjectWithName s calID objName = some s2 →
      propertyRowsForResource s2 o.resourceID = []) := by
  refine ⟨?_, ?_, ?_⟩
  · intro h s2 hh hrm
    unfold removeHomeWithUID at hrm
    rw [hh] at hrm
    simp only [Option.some.injEq] at hrm
    subst hrm
    exact propertyRows_deleteAllProperties _ _
  · intro c s2 hc hrm
    unfold removeCalendarWithName at hrm
    rw [hc] at hrm
    simp only [Option.some.injEq] at hrm
    subst hrm
    exact propertyRows_deleteAllProperties _ _
  · intro o s2 ho hrm
    unfold removeCalendarObjectWithName at hrm
    rw [ho] at hrm
    simp only [Option.some.injEq] at hrm
    subst hrm
    exact propertyRows_deleteAllProperties _ _

/-- Witness for C2: removing the `remove-me` calendar (resource ID 2) of
the demo store leaves zero property rows for resource ID 2. -/
theorem removal_deletes_property_rows_witness :
    calendarWithName demoStore 1 "remove-me" = some ⟨2, 1, "remove-me"⟩ ∧
    removeCalendarWithName demoStore 1 "remove-me"
      = some ((removeCalendarWithName demoStore 1 "remove-me").getD demoStore) ∧
    propertyRowsForResource
      ((removeCalendarWithName demoStore 1 "remove-me").getD demoStore) 2 = [] :=
  ⟨by decide, by decide,
   (removal_deletes_property_rows demoStore "home1" 1 "remove-me" "x" 0).2.1
     ⟨2, 1, "remove-me"⟩ _ (by decide) (by decide)⟩

/-- `find?` over rows purged of matches plus a freshly appended matching
row returns the fresh row. -/
theorem find?_filter_not_append (l : List PropertyRow) (pred : PropertyRow → Bool)
    (a : PropertyRow) (ha : pred a = true) :
    ((l.filter (fun p => !pred p)) ++ [a]).find? pred = some a := by
  induction l with
  | nil => simp [List.find?, ha]
  | cons b l ih =>
    by_cases hb : pred b = true
    · simpa [List.filter_cons, hb] using ih
    · simpa [List.filter_cons, List.find?_cons, hb] using ih

/-- Claim C8: a calendar object created in a calendar carries zero direct
property rows immediately after creation; a property write against an
object of the reserved `inbox` calendar is accepted and the written row is
readable back; and any property rows that do exist are removed when the
object is deleted. -/
theorem calendar_object_property_discipline
    (s : StoreState) (calID : Nat) (objName comp : String)
    (inboxCal : CalendarRow) (hinbox : inboxCal.calendarName = "inbox")
    (obj : CalendarObjectRow) (hobj : obj.calendarID = inboxCal.resourceID)
    (pname viewer v : String)
    (hfresh : propertyRowsForResource s s.nextResourceID = []) :
    propertyRowsForResource (createCalendarObjectWithName s calID objName comp).1
      (createCalendarObjectWithName s calID objName comp).2 = [] ∧
    getProperty (setProperty s obj.resourceID pname viewer v)
      obj.resourceID pname viewer = some v ∧
    (∀ o s2, calendarObjectWithName s calID objName = some o →
      removeCalendarObjectWithName s calID objName = some s2 →
      propertyRowsForResource s2 o.resourceID = []) := by
  refine ⟨hfresh, ?_, ?_⟩
  · simp only [getProperty, setProperty]
    rw [find?_filter_not_append]
    · rfl
    · simp
  · intro o s2 ho hrm
    unfold removeCalendarObjectWithName at hrm
    rw [ho] at hrm
    simp only [Option.some.injEq] at hrm
    subst hrm
    exact propertyRows_deleteAllProperties _ _

/-- Witness for C8 on the demo store: object 4 lives in the `inbox`
calendar (resource ID 3); the fresh creation ID 10 carries no rows and a
property write against object 4 reads back. -/
theorem calendar_object_property_discipline_witness :
    propertyRowsForResource demoStore demoStore.nextResourceID = [] ∧
    getProperty (setProperty demoStore 4 "caldav:description" "" "x")
      4 "caldav:description" "" = some "x" :=
  ⟨by decide,
   (calendar_object_property_discipline demoStore 3 "4.ics" "BODY"
      ⟨3, 1, "inbox"⟩ rfl ⟨4, 3, "4.ics", "BEGIN:VCALENDAR"⟩ rfl
      "caldav:description" "" "x" (by decide)).2.1⟩

/-- Unrolling `_migrateCalendar`'s fold over an arbitrary accumulator. -/
theorem migrate_foldl (filt : SourceObject → Except String String) :
    ∀ (src : List SourceObject) (n m : Nat) (dst : List (String × String)),
      src.foldl (migrateStep filt) ((n, m), dst)
        = ((n + src.countP (filterOk filt),
            m + src.countP (fun o => !filterOk filt o)),
           dst ++ src.filterMap (destEntry filt)) := by
  intro src
  induction src with
  | nil =>
    intro n m dst
    simp
  | cons o src ih =>
    intro n m dst
    cases hfo : filt o with
    | ok comp =>
      have hok : filterOk filt o = true := by simp [filterOk, hfo]
      have hde : destEntry filt o = some (o.objectName, comp) := by simp [destEntry, hfo]
      simp [List.foldl_cons, migrateStep, hfo, ih, List.countP_cons,
        List.filterMap_cons, hde, hok, Prod.mk.injEq]
      omega
    | error err =>
      have hok : filterOk filt o = false := by simp [filterOk, hfo]
      have hde : destEntry filt o = none := by simp [destEntry, hfo]
      simp [List.foldl_cons, migrateStep, hfo, ih, List.countP_cons,
        List.filterMap_cons, hde, hok, Prod.mk.injEq]
      omega

/-- Claim C3: for a source calendar with N objects passing the per-object
filter and M objects on which the filter fails, `_migrateCalendar` returns
the pair (N, M) — it is total, never aborting on an individual bad object —
and the destination calendar afterwards contains exactly the N valid
objects under their original names. -/
theorem migrateCalendar_partial_failure (source : List SourceObject)
    (filt : SourceObject → Except String String) :
    _migrateCalendar source filt
      = ((source.countP (filterOk filt), source.countP (fun o => !filterOk filt o)),
         source.filterMap (destEntry filt)) ∧
    (source.filterMap (destEntry filt)).map Prod.fst
      = (source.filter (filterOk filt)).map SourceObject.objectName ∧
    (source.filterMap (destEntry filt)).length = source.countP (filterOk filt) := by
  refine ⟨?_, ?_, ?_⟩
  · have h := migrate_foldl filt source 0 0 []
    simpa [_migrateCalendar] using h
  · induction source with
    | nil => rfl
    | cons o src ih =>
      cases hfo : filt o with
      | ok comp => simp [List.filterMap_cons, List.filter_cons, destEntry, filterOk, hfo, ih]
      | error err => simp [List.filterMap_cons, List.filter_cons, destEntry, filterOk, hfo, ih]
  · induction source with
    | nil => rfl
    | cons o src ih =>
      cases hfo : filt o with
      | ok comp => simp [List.filterMap_cons, List.countP_cons, destEntry, filterOk, hfo, ih]
      | error err => simp [List.filterMap_cons, List.countP_cons, destEntry, filterOk, hfo, ih]

/-- A concrete run of `_migrateCalendar` on the bad calendar of the demo
legacy home: one valid and one invalid object give the pair (1, 1), as in
`test_migrateBadCalendarFromFile`. -/
theorem migrateCalendar_demo_counts :
    (_migrateCalendar
        [⟨"good.ics", "BEGIN:VCALENDAR ok"⟩, ⟨"bad.ics", "garbage"⟩] demoFilter).1
      = (1, 1) ∧
    (_migrateCalendar
        [⟨"good.ics", "BEGIN:VCALENDAR ok"⟩, ⟨"bad.ics", "garbage"⟩] demoFilter).2
      = [("good.ics", "BEGIN:VCALENDAR ok")] := by
  constructor
  · decide
  · decide

/-- Key lookup is unchanged by filtering away regenerated keys, for any
key that is not regenerated. -/
theorem lookup_filter_not_regenerated (l : List (String × String))
    (regenerated : String → Bool) (k : String) (hk : regenerated k = false) :
    (l.filter (fun kv => !regenerated kv.1)).lookup k = l.lookup k := by
  induction l with
  | nil => rfl
  | cons a l ih =>
    obtain ⟨k1, v1⟩ := a
    by_cases hak : k = k1
    · subst hak
      simp [List.filter_cons, List.lookup, hk]
    · have hbeq : (k == k1) = false := by simp [hak]
      cases hr1 : regenerated k1 <;>
        simp [List.filter_cons, List.lookup, hbeq, hr1, ih]

/-- Claim C5: `migrateHome` produces a destination home whose calendar
name list equals the source's (names preserved), whose home property
store agrees with the source's on every key not defined to be regenerated
by the destination, and in which each source calendar has a destination
calendar of the same name whose objects are the `_migrateCalendar` result
and whose properties agree on every non-regenerated key. -/
theorem migrateHome_preserves_names_and_properties (src : LegacyHome)
    (filt : SourceObject → Except String String) (regenerated : String → Bool) :
    (migrateHome src filt regenerated).calendars.map DestCalendar.calendarName
      = src.calendars.map LegacyCalendar.calendarName ∧
    (∀ k, regenerated k = false →
      (migrateHome src filt regenerated).props.lookup k = src.props.lookup k) ∧
    (∀ c ∈ src.calendars, ∃ c2 ∈ (migrateHome src filt regenerated).calendars,
      c2.calendarName = c.calendarName ∧
      c2.objects = (_migrateCalendar c.objects filt).2 ∧
      ∀ k, regenerated k = false → c2.props.lookup k = c.props.lookup k) := by
  refine ⟨?_, ?_, ?_⟩
  · simp only [migrateHome, List.map_map]
    rfl
  · intro k hk
    exact lookup_filter_not_regenerated _ _ _ hk
  · intro c hc
    refine ⟨⟨c.calendarName, (_migrateCalendar c.objects filt).2,
             c.props.filter (fun kv => !regenerated kv.1)⟩,
      List.mem_map.mpr ⟨c, hc, rfl⟩, rfl, rfl, ?_⟩
    intro k hk
    exact lookup_filter_not_regenerated _ _ _ hk

/-- Witness for C5 on the demo legacy home: the non-regenerated
`getcontentlanguage` property of the home survives migration unchanged. -/
theorem migrateHome_preserves_witness :
    demoRegenerated "getcontentlanguage" = false ∧
    (migrateHome demoLegacyHome demoFilter demoRegenerated).props.lookup
        "getcontentlanguage"
      = demoLegacyHome.props.lookup "getcontentlanguage" :=
  ⟨by decide,
   (migrateHome_preserves_names_and_properties demoLegacyHome demoFilter
      demoRegenerated).2.1 "getcontentlanguage" (by decide)⟩

/-- `hexNat` always renders exactly `w` digits. -/
theorem hexNat_length (n : Nat) : ∀ w : Nat, (hexNat n w).length = w := by
  intro w
  induction w with
  | zero => rfl
  | succ w ih => simp [hexNat, ih]

/-- Decoding inverts `hexChar` on hex digits. -/
theorem unhexVal_hexChar : ∀ d : Nat, d < 16 → unhexVal (hexChar d) = d := by
  decide

/-- Decoding inverts `hexNat` modulo the width. -/
theorem unhexList_hexNat (n : Nat) : ∀ w : Nat, unhexList (hexNat n w) = n % 16 ^ w := by
  intro w
  induction w with
  | zero => simp [hexNat, unhexList, Nat.mod_one]
  | succ w ih =>
    have hd : n / 16 ^ w % 16 < 16 := Nat.mod_lt _ (by norm_num)
    simp only [hexNat, unhexList, hexNat_length, unhexVal_hexChar _ hd, ih]
    rw [Nat.pow_succ, Nat.mod_mul]
    ring

/-- `hexNat` is injective below `16 ^ w`. -/
theorem hexNat_inj (w n m : Nat) (hn : n < 16 ^ w) (hm : m < 16 ^ w)
    (h : hexNat n w = hexNat m w) : n = m := by
  have h2 := congrArg unhexList h
  rwa [unhexList_hexNat, unhexList_hexNat, Nat.mod_eq_of_lt hn,
    Nat.mod_eq_of_lt hm] at h2

theorem charHex_length (c : Char) : (charHex c).length = 8 :=
  hexNat_length c.toNat 8

/-- The per-character hex encoding of the digest is injective. -/
theorem charHex_inj (c d : Char) (h : charHex c = charHex d) : c = d := by
  have h16 : (16 : Nat) ^ 8 = 2 ^ 32 := by norm_num
  have hc : c.toNat < 16 ^ 8 := by rw [h16]; exact UInt32.toNat_lt c.val
  have hd : d.toNat < 16 ^ 8 := by rw [h16]; exact UInt32.toNat_lt d.val
  have hn := hexNat_inj 8 c.toNat d.toNat hc hd h
  calc c = Char.ofNat c.toNat := (Char.ofNat_toNat c).symm
  _ = Char.ofNat d.toNat := by rw [hn]
  _ = d := Char.ofNat_toNat d

/-- Flattening a list of equal-length non-empty blocks is injective. -/
theorem flatten_inj_fixed (k : Nat) (hk : 0 < k) :
    ∀ xs ys : List (List Char), (∀ l ∈ xs, l.length = k) →
      (∀ l ∈ ys, l.length = k) → xs.flatten = ys.flatten → xs = ys := by
  intro xs
  induction xs with
  | nil =>
    intro ys _ hys h
    cases ys with
    | nil => rfl
    | cons y ys =>
      exfalso
      rw [List.flatten_cons] at h
      have h2 := List.append_eq_nil.mp h.symm
      have hy : y.length = k := hys y (by simp)
      rw [h2.1] at hy
      simp at hy
      omega
  | cons x xs ih =>
    intro ys hxs hys h
    cases ys with
    | nil =>
      exfalso
      rw [List.flatten_cons] at h
      have h2 := List.append_eq_nil.mp h
      have hx : x.length = k := hxs x (by simp)
      rw [h2.1] at hx
      simp at hx
      omega
    | cons y ys =>
      rw [List.flatten_cons, List.flatten_cons] at h
      have hx : x.length = k := hxs x (by simp)
      have hy : y.length = k := hys y (by simp)
      have h2 := List.append_inj h (by rw [hx, hy])
      rw [h2.1, ih ys (fun l hl => hxs l (by simp [hl]))
        (fun l hl => hys l (by simp [hl])) h2.2]

/-- The modelled hex digest is injective: distinct dropbox identifiers
have distinct digests. -/
theorem hexDigest_inj (d1 d2 : String) (h : hexDigest d1 = hexDigest d2) :
    d1 = d2 := by
  have hdata : (d1.data.map charHex).flatten = (d2.data.map charHex).flatten :=
    congrArg String.data h
  have hlen1 : ∀ l ∈ d1.data.map charHex, l.length = 8 := by
    intro l hl
    obtain ⟨c, _, rfl⟩ := List.mem_map.mp hl
    exact charHex_length c
  have hlen2 : ∀ l ∈ d2.data.map charHex, l.length = 8 := by
    intro l hl
    obtain ⟨c, _, rfl⟩ := List.mem_map.mp hl
    exact charHex_length c
  have hmap := flatten_inj_fixed 8 (by norm_num) _ _ hlen1 hlen2 hdata
  have hinj : Function.Injective charHex := fun a b hab => charHex_inj a b hab
  have hdd : d1.data = d2.data := (List.map_injective_iff.mpr hinj) hmap
  exact String.ext hdd

/-- Claim C4: the attachment storage path is
`attachmentRoot / h[0:2] / h[2:4] / h / filename` with `h` the hex digest
of the hash of the dropbox identifier; the path is computed by one
deterministic function (used at write and at read), and two objects with
distinct dropbox identifiers never collide on path, even with equal
filenames. -/
theorem attachment_path_sharded_and_collision_free
    (attachmentRoot : List String) (d d1 d2 f f1 f2 : String) :
    attachmentPathSegments attachmentRoot d f
      = attachmentRoot ++ [(hexDigest d).take 2, ((hexDigest d).drop 2).take 2,
                           hexDigest d, f] ∧
    (d1 ≠ d2 →
      attachmentPathSegments attachmentRoot d1 f1
        ≠ attachmentPathSegments attachmentRoot d2 f2) := by
  constructor
  · rfl
  · intro hne heq
    unfold attachmentPathSegments at heq
    have h4 := List.append_cancel_left heq
    simp only [List.cons.injEq] at h4
    exact hne (hexDigest_inj _ _ h4.2.2.1)

/-- Witness for C4: the identifiers `x` and `y` with the same filename
give different paths. -/
theorem attachment_path_witness :
    "x" ≠ "y" ∧
    attachmentPathSegments [] "x" "new.attachment"
      ≠ attachmentPathSegments [] "y" "new.attachment" :=
  ⟨by decide,
   (attachment_path_sharded_and_collision_free [] "x" "x" "y" "f"
      "new.attachment" "new.attachment").2 (by decide)⟩

/-- A successful association lookup is unchanged by appending rows. -/
theorem lookup_append_of_some (l l2 : List (String × Nat)) (k : String) (v : Nat)
    (h : l.lookup k = some v) : (l ++ l2).lookup k = some v := by
  rw [List.lookup_append, h]
  rfl

/-- A failed association lookup after appending one row finds exactly
that row. -/
theorem lookup_append_of_none (l : List (String × Nat)) (k k2 : String) (n : Nat)
    (h : l.lookup k = none) :
    (l ++ [(k2, n)]).lookup k = if k == k2 then some n else none := by
  rw [List.lookup_append, h]
  cases hk : (k == k2) <;>
    simp [List.lookup_cons, List.lookup_nil, hk, Option.or]

/-- Each provisioning step preserves the invariant. -/
theorem provStep_preserves_inv (s s2 : ProvState) (op : ProvOp)
    (hinv : ProvInv s) (hstep : provStep s op = some s2) : ProvInv s2 := by
  obtain ⟨h1, h2⟩ := hinv
  cases op with
  | acquire txn key =>
    simp only [provStep] at hstep
    cases hl : lockHeldByOther s txn key with
    | true => simp [hl] at hstep
    | false =>
      simp only [hl, Bool.false_eq_true, if_false, Option.some.injEq] at hstep
      subst hstep
      exact ⟨h1, h2⟩
  | checkInsert txn key =>
    simp only [provStep] at hstep
    by_cases hmem : (txn, key) ∈ s.locks
    · rw [if_pos hmem] at hstep
      cases hrows : s.rows.lookup key with
      | some i =>
        rw [hrows] at hstep
        simp only [Option.some.injEq] at hstep
        subst hstep
        refine ⟨h1, ?_⟩
        intro t k i2 hm
        rcases List.mem_append.mp hm with hold | hnew
        · exact h2 t k i2 hold
        · simp only [List.mem_singleton, Prod.mk.injEq] at hnew
          obtain ⟨rfl, rfl, rfl⟩ := hnew
          exact hrows
      | none =>
        rw [hrows] at hstep
        simp only [Option.some.injEq] at hstep
        subst hstep
        constructor
        · intro key2
          show (s.insertLog ++ [(txn, key)]).countP (fun e => e.2 == key2)
              = if ((s.rows ++ [(key, s.nextID)]).lookup key2).isSome then 1 else 0
          rw [List.countP_append]
          by_cases hkk : key2 = key
          · subst hkk
            have h0 := h1 key2
            rw [hrows] at h0
            simp only [Option.isSome_none, Bool.false_eq_true, if_false] at h0
            simp only [insertCountFor] at h0
            rw [lookup_append_of_none s.rows key2 key2 s.nextID hrows]
            have hsing : List.countP (fun e => e.2 == key2) [(txn, key2)] = 1 := by
              simp [List.countP_cons]
            rw [hsing, h0]
            simp
          · have hb : (key2 == key) = false := by
              rw [beq_eq_false_iff_ne]
              exact hkk
            have hb2 : (key == key2) = false := by
              rw [beq_eq_false_iff_ne]
              exact fun he => hkk he.symm
            have hsingle :
                List.countP (fun e => e.2 == key2) [(txn, key)] = 0 := by
              simp [List.countP_cons, hb2]
            rw [hsingle]
            cases hv : s.rows.lookup key2 with
            | some v =>
              rw [lookup_append_of_some s.rows _ key2 v hv]
              have h0 := h1 key2
              rw [hv] at h0
              simp only [insertCountFor] at h0
              rw [h0]
              simp
            | none =>
              have hr2 : (s.rows ++ [(key, s.nextID)]).lookup key2 = none := by
                rw [lookup_append_of_none s.rows key2 key s.nextID hv, hb]
                simp
              rw [hr2]
              have h0 := h1 key2
              rw [hv] at h0
              simp only [insertCountFor] at h0
              simp only [Option.isSome_none, Bool.false_eq_true, if_false] at h0 ⊢
              omega
        · intro t k i2 hm
          rcases List.mem_append.mp hm with hold | hnew
          · have hv := h2 t k i2 hold
            exact lookup_append_of_some s.rows _ k i2 hv
          · simp only [List.mem_singleton, Prod.mk.injEq] at hnew
            obtain ⟨rfl, rfl, rfl⟩ := hnew
            rw [lookup_append_of_none s.rows k k s.nextID hrows]
            simp
    · rw [if_neg hmem] at hstep
      simp at hstep
  | release txn key =>
    simp only [provStep] at hstep
    simp only [Option.some.injEq] at hstep
    subst hstep
    exact ⟨h1, h2⟩
  | readRow txn key =>
    simp only [provStep] at hstep
    simp only [Option.some.injEq] at hstep
    subst hstep
    exact ⟨h1, h2⟩

/-- Running any interleaving preserves the invariant. -/
theorem provRun_preserves_inv (trace : List ProvOp) :
    ∀ s s2 : ProvState, ProvInv s → provRun s trace = some s2 → ProvInv s2 := by
  induction trace with
  | nil =>
    intro s s2 h hrun
    simp only [provRun, Option.some.injEq] at hrun
    subst hrun
    exact h
  | cons op ops ih =>
    intro s s2 h hrun
    unfold provRun at hrun
    cases hstep : provStep s op with
    | none =>
      rw [hstep] at hrun
      simp at hrun
    | some s1 =>
      rw [hstep] at hrun
      exact ih s1 s2 (provStep_preserves_inv s s1 op h hstep) hrun

/-- The empty backing storage satisfies the invariant. -/
theorem initProvState_inv : ProvInv initProvState := by
  constructor
  · intro key
    simp [insertCountFor, initProvState, List.lookup]
  · intro t k i h
    simp [initProvState] at h

/-- Claim C6: in every interleaving of transactions provisioning the same
logical (kind, name) key, at most one `INSERT` occurs for that key (and
exactly one once any provisioning of it completes), every transaction that
provisioned the key ends up referencing the same entity ID, and a
read-only access to an already-committed different row is never blocked by
the provisioning lock: the read step is enabled in every state — whatever
locks are held — and returns exactly the committed row. -/
theorem provisioning_concurrency (trace : List ProvOp) (s2 : ProvState)
    (hrun : provRun initProvState trace = some s2) :
    (∀ key, insertCountFor s2 key ≤ 1) ∧
    (∀ t key i, (t, key, i) ∈ s2.results → insertCountFor s2 key = 1) ∧
    (∀ t1 t2 key i1 i2, (t1, key, i1) ∈ s2.results →
      (t2, key, i2) ∈ s2.results → i1 = i2) ∧
    (∀ s : ProvState, ∀ txn key, provStep s (.readRow txn key)
      = some { s with reads := s.reads ++ [(txn, key, s.rows.lookup key)] }) := by
  obtain ⟨h1, h2⟩ := provRun_preserves_inv trace initProvState s2 initProvState_inv hrun
  refine ⟨?_, ?_, ?_, ?_⟩
  · intro key
    rw [h1 key]
    by_cases hb : (s2.rows.lookup key).isSome <;> simp [hb]
  · intro t key i hm
    rw [h1 key, h2 t key i hm]
    rfl
  · intro t1 t2 key i1 i2 hm1 hm2
    have e1 := h2 t1 key i1 hm1
    have e2 := h2 t2 key i2 hm2
    rw [e1] at e2
    exact Option.some.inj e2
  · intro s txn key
    rfl

/-- Witness for C6: in the demo interleaving, transactions 1 and 2 race on
`uid1`; exactly one insert happens for `uid1`, both reference entity ID 1,
and transaction 4's read of the already-committed `uid2` row succeeds
(returning entity ID 0) while transaction 1 still holds the `uid1` lock. -/
theorem provisioning_concurrency_witness :
    provRun initProvState demoTrace = some demoProvFinal ∧
    (1, "uid1", 1) ∈ demoProvFinal.results ∧
    (2, "uid1", 1) ∈ demoProvFinal.results ∧
    insertCountFor demoProvFinal "uid1" = 1 ∧
    demoProvFinal.reads = [(4, "uid2", some 0)] :=
  ⟨by decide, by decide, by decide,
   (provisioning_concurrency demoTrace demoProvFinal (by decide)).2.1
     1 "uid1" 1 (by decide),
   by decide⟩
